import Mathlib

/-!
Shallow embedding of the srcomapi request pipeline (src/client.rs and
src/paginated.rs) and proofs about its cache-expiry, rate-limiting, retry
and pagination behavior.

Modelling conventions:
* `SystemTime` instants and `Duration`s are natural numbers of nanoseconds
  (`Duration::as_secs` is integer division by `10 ^ 9`).
* `SystemTime::elapsed()` at time `now` on a timestamp `ts` succeeds with
  `now - ts` when `ts ≤ now` and fails with a `SystemTimeError` otherwise;
  this is `elapsedSince`.
* `thread_rng().gen_bool(p)` is modelled by an oracle `draw : ℚ → Bool`
  applied to the probability argument the code computes.  `gen_bool` panics
  when its argument is not a real number in `[0, 1]`; in the code the only
  way this happens is a division by zero seconds (NaN), which we represent
  by `genBoolArg` returning `none`, and a `none` result of
  `timestamp_is_valid` stands for that panic.
* `Range<Duration>` is `DRange` with fields `start`/`stop` (`stop` is the
  Rust field `end`).
* The `HashMap<Url, RequestInfo>` backing the cache is an association list;
  `HashMap::insert` replaces the value of an existing key and otherwise adds
  the binding.
* Network effects are oracles indexed by a global send counter, so a theorem
  can count how many HTTP requests an operation performed.
-/

/-- Nanoseconds per second; `Duration` values are nanosecond counts. -/
def NANOS_PER_SEC : Nat := 1000000000

/-- Rust `Duration::as_secs`: whole seconds of a nanosecond count. -/
def asSecs (d : Nat) : Nat := d / NANOS_PER_SEC

/-- `RATE_LIMIT_NUM_REQUESTS` from src/client.rs. -/
def RATE_LIMIT_NUM_REQUESTS : Nat := 100

/-- `RATE_LIMIT_INTERVAL` (60 seconds) from src/client.rs, in nanoseconds. -/
def RATE_LIMIT_INTERVAL : Nat := 60 * NANOS_PER_SEC

/-- `Range<Duration>`: the Rust field `end` is called `stop` here. -/
structure DRange where
  start : Nat
  stop : Nat
deriving DecidableEq, Repr

/-- `SystemTime::elapsed` at instant `now` for timestamp `ts`: `Ok(now - ts)`
when `ts ≤ now`, otherwise a `SystemTimeError` (`none`). -/
def elapsedSince (now ts : Nat) : Option Nat :=
  if ts ≤ now then some (now - ts) else none

/-- The probability argument `timestamp_is_valid` passes to
`thread_rng().gen_bool`:
`(timeout.end - elapsed).as_secs() as f64 / (timeout.end - timeout.start).as_secs() as f64`.
A zero denominator makes the f64 division produce NaN, on which `gen_bool`
panics; that case is `none`. -/
def genBoolArg (timeout : DRange) (elapsed : Nat) : Option ℚ :=
  if asSecs (timeout.stop - timeout.start) = 0 then none
  else some ((asSecs (timeout.stop - elapsed) : ℚ) / (asSecs (timeout.stop - timeout.start) : ℚ))

/-- `timestamp_is_valid` from src/client.rs, with the RNG abstracted as
`draw` (the Bernoulli sampler behind `gen_bool`).  `some b` is a normal
return of `b`; `none` is the `gen_bool` panic on a NaN probability.
The Rust `||` and `&&` short-circuit, so the draw only happens when
`timeout.start ≤ elapsed < timeout.end`, and a failed `elapsed()` gives
`false` via `unwrap_or_default`. -/
def timestamp_is_valid (draw : ℚ → Bool) (now ts : Nat) (timeout : DRange) : Option Bool :=
  match elapsedSince now ts with
  | none => some false
  | some elapsed =>
    if elapsed < timeout.start then some true
    else if elapsed < timeout.stop then
      match genBoolArg timeout elapsed with
      | none => none
      | some p => some (draw p)
    else some false

/-- `impl IntoTimeout for Duration` from src/client.rs: `Some(self..self)`. -/
def durationIntoTimeout (d : Nat) : Option DRange :=
  some ⟨d, d⟩

/-- A JSON value; only enough structure to tell cached bodies apart. -/
inductive JsonVal where
  | null
  | num (n : Nat)
deriving DecidableEq, Repr

/-- A request URL: base plus appended query pairs (`query_pairs_mut().extend_pairs`). -/
structure Url where
  base : String
  query : List (String × Nat)
deriving DecidableEq, Repr

/-- `RequestInfo` from src/client.rs: fetch timestamp plus cached body. -/
structure RequestInfo where
  timestamp : Nat
  data : JsonVal
deriving DecidableEq, Repr

/-- The mutable state of `Cache` from src/client.rs (the backing path is
immaterial to the claims; persisting success is the `persistOk` argument of
`cacheInsert`). -/
structure CacheSt where
  data : List (Url × RequestInfo)
  changes : Nat
deriving DecidableEq, Repr

/-- `HashMap::get` on the association-list model. -/
def cacheLookup (d : List (Url × RequestInfo)) (url : Url) : Option RequestInfo :=
  (d.find? (fun p => decide (p.1 = url))).map (fun p => p.2)

/-- `HashMap::insert`: overwrite the value at an existing key, else add the
binding. -/
def mapInsert (d : List (Url × RequestInfo)) (url : Url) (info : RequestInfo) :
    List (Url × RequestInfo) :=
  if d.any (fun p => decide (p.1 = url)) then
    d.map (fun p => if p.1 = url then (url, info) else p)
  else d ++ [(url, info)]

/-- `Cache::get` from src/client.rs: a hit requires the entry to exist and,
when a timeout is configured, to pass `timestamp_is_valid` re-evaluated now.
`none` propagates the `timestamp_is_valid` panic; `some none` is a miss. -/
def cacheGet (draw : ℚ → Bool) (now : Nat) (d : List (Url × RequestInfo))
    (timeout : Option DRange) (url : Url) : Option (Option JsonVal) :=
  match cacheLookup d url with
  | none => some none
  | some info =>
    match timeout with
    | none => some (some info.data)
    | some t =>
      match timestamp_is_valid draw now info.timestamp t with
      | none => none
      | some true => some (some info.data)
      | some false => some none

/-- `Cache::insert` from src/client.rs: unconditional map insert, bump the
dirty counter, and on reaching 16 changes attempt a best-effort persist,
resetting the counter only if persisting succeeded (`persistOk`). -/
def cacheInsert (persistOk : Bool) (c : CacheSt) (url : Url) (info : RequestInfo) : CacheSt :=
  let d := mapInsert c.data url info
  let ch := c.changes + 1
  if 16 ≤ ch then
    if persistOk then ⟨d, 0⟩ else ⟨d, ch⟩
  else ⟨d, ch⟩

/-- `Builder::disk_cache` body from src/client.rs: after parsing the file,
`retain` every entry through the full `timestamp_is_valid` check (including
its probabilistic branch).  `none` is a panic of the validity check inside
`retain`. -/
def diskCacheRetain (draw : ℚ → Bool) (now : Nat) (timeout : Option DRange)
    (entries : List (Url × RequestInfo)) : Option (List (Url × RequestInfo)) :=
  match timeout with
  | none => some entries
  | some t =>
    if entries.all (fun e => (timestamp_is_valid draw now e.2.timestamp t).isSome) then
      some (entries.filter (fun e => (timestamp_is_valid draw now e.2.timestamp t).getD false))
    else none

/-- The filter in `Cache::rate_limited`: a timestamp is recent when
`elapsed() < RATE_LIMIT_INTERVAL`, and a failed `elapsed()` (future
timestamp) counts as recent via `unwrap_or(true)`. -/
def recentRequestTimes (now : Nat) (ts : List Nat) : List Nat :=
  ts.filter (fun t =>
    match elapsedSince now t with
    | some e => decide (e < RATE_LIMIT_INTERVAL)
    | none => true)

/-- `Cache::rate_limited` from src/client.rs.  `Except.error ()` is the
`SystemTimeError` propagated by `?` when the oldest recent timestamp lies in
the future; the `none` arm of the match is unreachable because the guard
forces the filtered list to be nonempty (the source `unwrap`). -/
def rateLimited (now : Nat) (ts : List Nat) : Except Unit (Option Nat) :=
  if RATE_LIMIT_NUM_REQUESTS ≤ (recentRequestTimes now ts).length then
    match (recentRequestTimes now ts).min? with
    | none => Except.ok none
    | some m =>
      if m ≤ now then
        if now - m < RATE_LIMIT_INTERVAL then
          Except.ok (some (RATE_LIMIT_INTERVAL - (now - m)))
        else Except.ok none
      else Except.error ()
  else Except.ok none

/-- Failure kinds of one network attempt
(`send()`/`error_for_status()`/`json()`), with an identifying payload so
theorems can tell attempts apart.  `client` and `serialization` are the two
kinds `e.is_client_error() || e.is_serialization()` matches. -/
inductive FetchErr where
  | client (id : Nat)
  | serialization (id : Nat)
  | transient (id : Nat)
deriving DecidableEq, Repr

/-- The `is_client_error() || is_serialization()` test from the retry loop. -/
def FetchErr.isImmediate : FetchErr → Bool
  | FetchErr.client _ => true
  | FetchErr.serialization _ => true
  | FetchErr.transient _ => false

/-- Whether an attempt outcome is a retryable (transient) failure. -/
def isTransient (r : Except FetchErr JsonVal) : Bool :=
  match r with
  | Except.error (FetchErr.transient _) => true
  | _ => false

/-- Whether an attempt outcome stops the retry loop: a success breaks out, a
client/serialization error is returned immediately. -/
def isStop (r : Except FetchErr JsonVal) : Bool :=
  match r with
  | Except.ok _ => true
  | Except.error e => e.isImmediate

/-- One network attempt: query the oracle at the current global send count
and bump the counter (each retry re-issues `client.get(url).send()...`). -/
def attemptNet (net : Nat → Except FetchErr JsonVal) (sends : Nat) :
    Except FetchErr JsonVal × Nat :=
  (net sends, sends + 1)

/-- The body of `for _ in 1..self.num_tries` in `Client::get_raw`: inspect
the previous attempt's outcome; break on success, return client and
serialization errors immediately, otherwise re-issue the request.  `k` is
the number of loop iterations remaining. -/
def retryAux (net : Nat → Except FetchErr JsonVal) :
    Nat → Except FetchErr JsonVal → Nat → Except FetchErr JsonVal × Nat
  | 0, r, sends => (r, sends)
  | k + 1, r, sends =>
    match r with
    | Except.ok v => (Except.ok v, sends)
    | Except.error e =>
      if e.isImmediate then (Except.error e, sends)
      else
        let a := attemptNet net sends
        retryAux net k a.1 a.2

/-- The attempt/retry phase of `Client::get_raw` (src/client.rs lines
395-409): one initial attempt followed by the `1..num_tries` loop.  Returns
the final outcome and the updated send counter. -/
def retryLoop (net : Nat → Except FetchErr JsonVal) (numTries : Nat) (sends : Nat) :
    Except FetchErr JsonVal × Nat :=
  let a := attemptNet net sends
  retryAux net (numTries - 1) a.1 a.2

/-- The world a fetch runs in: the shared cache, the current instant and the
count of HTTP requests sent so far. -/
structure NetWorld where
  cache : CacheSt
  now : Nat
  sends : Nat
deriving DecidableEq, Repr

/-- Errors `Client::get_raw` can surface: a network/HTTP failure, a
`serde_json::from_value` failure, a `SystemTimeError` from the rate limiter,
or a panic inside the cache validity check. -/
inductive GetErr where
  | fetch (e : FetchErr)
  | decodeFail
  | systemTime
  | panicked
deriving DecidableEq, Repr

/-- `Client::get_raw` from src/client.rs over a world state.  The outer
`loop` is fueled (`none` = fuel exhausted): check the cache, then the rate
limiter (sleeping advances `now` and re-enters the loop), then perform the
attempt/retry phase, insert a success into the cache and decode it.
`decode` is `serde_json::from_value` at the caller's type `T`. -/
def getRaw {T : Type} (draw : ℚ → Bool) (timeout : Option DRange) (numTries : Nat)
    (net : Nat → Except FetchErr JsonVal) (decode : JsonVal → Except Unit T)
    (persistOk : Bool) :
    Nat → Url → NetWorld → Option (Except GetErr T × NetWorld)
  | 0, _, _ => none
  | fuel + 1, url, w =>
    match cacheGet draw w.now w.cache.data timeout url with
    | none => some (Except.error GetErr.panicked, w)
    | some (some v) =>
      match decode v with
      | Except.error _ => some (Except.error GetErr.decodeFail, w)
      | Except.ok t => some (Except.ok t, w)
    | some none =>
      match rateLimited w.now (w.cache.data.map (fun p => p.2.timestamp)) with
      | Except.error _ => some (Except.error GetErr.systemTime, w)
      | Except.ok (some d) =>
        getRaw draw timeout numTries net decode persistOk fuel url
          { w with now := w.now + d }
      | Except.ok none =>
        match retryLoop net numTries w.sends with
        | (Except.error e, sends1) =>
          some (Except.error (GetErr.fetch e), { w with sends := sends1 })
        | (Except.ok v, sends1) =>
          let cache1 := cacheInsert persistOk w.cache url ⟨w.now, v⟩
          match decode v with
          | Except.error _ =>
            some (Except.error GetErr.decodeFail, { w with cache := cache1, sends := sends1 })
          | Except.ok t =>
            some (Except.ok t, { w with cache := cache1, sends := sends1 })

/-- `PaginationInfo` from src/paginated.rs. -/
structure PaginationInfo where
  max : Nat
  size : Nat
deriving DecidableEq, Repr

/-- `PaginatedResult` from src/paginated.rs: page body plus metadata. -/
structure PaginatedResult (T : Type) where
  data : List T
  pagination : PaginationInfo
deriving DecidableEq, Repr

/-- The mutable state of `PaginatedList` from src/paginated.rs.  The source
fields `cached_prefix` and `prefix_len` appear here as `buffer` and
`prefix_len`; the client handle is implicit in the world. -/
structure PLState (T : Type) where
  uri : String
  prefix_len : Nat
  buffer : List T
  end_seen : Bool
  page_size : Nat
deriving DecidableEq, Repr

/-- The URL of the next page request built in `PaginatedList::next`:
the endpoint URI with `offset` and `max` query pairs appended. -/
def pageUrl {T : Type} (s : PLState T) : Url :=
  ⟨s.uri, [("offset", s.prefix_len), ("max", s.page_size)]⟩

/-- The outcome of one `PaginatedList::next` call: `yield` is
`Some(Ok(item))`, `fail` is `Some(Err(e))`, `done` is `None`, and
`assertFail` is the `assert_eq!(pagination.size, data.len())` panic. -/
inductive NextOutcome (T : Type) where
  | yield (item : T)
  | fail (e : FetchErr)
  | done
  | assertFail
deriving DecidableEq, Repr

/-- `PaginatedList::next` from src/paginated.rs.  The page request is a
direct HTTP call on the transport (`self.client.get(&self.uri).query(..)
.query(..).send()` followed by `error_for_status` and `json`), modelled by
the `pnet` oracle indexed by the global send counter; the call consumes one
send unconditionally and the cache and rate limiter do not appear. -/
def plNext {T : Type} (pnet : Nat → Url → Except FetchErr (PaginatedResult T))
    (s : PLState T) (w : NetWorld) : NextOutcome T × PLState T × NetWorld :=
  match s.buffer with
  | x :: rest => (NextOutcome.yield x, { s with buffer := rest }, w)
  | [] =>
    if s.end_seen then (NextOutcome.done, s, w)
    else
      let w1 := { w with sends := w.sends + 1 }
      match pnet w.sends (pageUrl s) with
      | Except.error e => (NextOutcome.fail e, s, w1)
      | Except.ok r =>
        if r.pagination.size ≠ r.data.length then (NextOutcome.assertFail, s, w1)
        else
          let s1 := { s with
            end_seen := if r.pagination.size < r.pagination.max then true else s.end_seen,
            prefix_len := s.prefix_len + r.pagination.size }
          match r.data with
          | [] => (NextOutcome.done, { s1 with buffer := [] }, w1)
          | x :: rest => (NextOutcome.yield x, { s1 with buffer := rest }, w1)

/-- A Bernoulli sampler that always returns `true` (a run of the RNG in
which every draw succeeds). -/
def drawTrue : ℚ → Bool := fun _ => true

/-- A Bernoulli sampler that always returns `false`. -/
def drawFalse : ℚ → Bool := fun _ => false

/-- `serde_json::from_value` at `T = serde_json::Value`: the identity
decoder, which never fails. -/
def decodeOk : JsonVal → Except Unit JsonVal := fun v => Except.ok v

/-- A network oracle on which every attempt fails transiently. -/
def netAllTransient : Nat → Except FetchErr JsonVal :=
  fun i => Except.error (FetchErr.transient i)

/-- A network oracle whose second attempt is a client error, after a first
transient failure. -/
def netClientSecond : Nat → Except FetchErr JsonVal :=
  fun i => if i = 1 then Except.error (FetchErr.client 7) else Except.error (FetchErr.transient i)

/-- A fresh `PaginatedList` over the `/games` endpoint with the default page
size 20 (`PaginatedList::new`). -/
def s0games : PLState Nat := ⟨"/games", 0, [], false, 20⟩

/-- The cached body of the first `/games` page in the C1 scenario. -/
def pageJson : JsonVal := JsonVal.num 42

/-- A world whose cache already holds a zero-age entry for the first
`/games` page request and in which no request has been sent yet. -/
def w0c1 : NetWorld := ⟨⟨[(pageUrl s0games, ⟨0, pageJson⟩)], 0⟩, 0, 0⟩

/-- A page oracle that always returns a one-item page with metadata
`size = 1 < max = 20`. -/
def pnetC1 : Nat → Url → Except FetchErr (PaginatedResult Nat) :=
  fun _ _ => Except.ok ⟨[7], ⟨20, 1⟩⟩

/-- A fresh `PaginatedList` over the `/runs` endpoint. -/
def s0runs : PLState Nat := ⟨"/runs", 0, [], false, 20⟩

/-- A page oracle whose first response is an empty page with metadata
`size = max = 0` and whose later responses carry one item with
`size = max = 1`. -/
def pnetC10 : Nat → Url → Except FetchErr (PaginatedResult Nat) :=
  fun sends _ => if sends = 0 then Except.ok ⟨[], ⟨0, 0⟩⟩ else Except.ok ⟨[9], ⟨1, 1⟩⟩

/-- The `i`-th distinct cache key used by the C6 scenario. -/
def mkU (i : Nat) : Url := ⟨"u", [("i", i)]⟩

/-- A cache holding `RATE_LIMIT_NUM_REQUESTS` distinct entries, all with
timestamp 0. -/
def bigCache : CacheSt :=
  ⟨(List.range RATE_LIMIT_NUM_REQUESTS).map (fun i => (mkU i, ⟨0, JsonVal.null⟩)), 0⟩

/-- An instant far beyond the rate-limit window after timestamp 0. -/
def bigNow : Nat := 1000 * NANOS_PER_SEC

/-- The single cache key of the C5 and C8 scenarios. -/
def u0 : Url := ⟨"/users/1", []⟩

/-- C1: the claim says the next page is fetched through `Client::get_raw`
and thereby shares its cache lookup, rate-limit wait, retry policy and
cache insertion.  The code of `PaginatedList::next` instead issues a direct
transport request: in a world whose cache already holds a fresh entry for
the exact page URL, `get_raw` on that URL is a pure cache hit (no request
sent, world unchanged), while `next` still sends a network request and
leaves the cache without any insertion. -/
theorem C1_pagination_bypasses_pipeline :
    getRaw drawTrue (some ⟨RATE_LIMIT_INTERVAL, RATE_LIMIT_INTERVAL⟩) 1 netAllTransient
        decodeOk true 1 (pageUrl s0games) w0c1
      = some (Except.ok pageJson, w0c1)
    ∧ plNext pnetC1 s0games w0c1
      = (NextOutcome.yield 7, ⟨"/games", 1, [], true, 20⟩, ⟨w0c1.cache, 0, 1⟩) := by
  exact ⟨rfl, rfl⟩

/-- C10: the code declares `FusedIterator`, but after a fetch returning an
empty page with `size = max` (so the end flag stays unset), `next` returns
`None` and a subsequent call performs another network fetch and yields
`Some` again. -/
theorem C10_fused_contract_broken :
    s0runs.end_seen = false
    ∧ plNext pnetC10 s0runs ⟨⟨[], 0⟩, 0, 0⟩ = (NextOutcome.done, s0runs, ⟨⟨[], 0⟩, 0, 1⟩)
    ∧ plNext pnetC10 s0runs ⟨⟨[], 0⟩, 0, 1⟩
      = (NextOutcome.yield 9, ⟨"/runs", 1, [], false, 20⟩, ⟨⟨[], 0⟩, 0, 2⟩) := by
  exact ⟨rfl, rfl, rfl⟩

/-- C8: a `Duration` cache timeout becomes the degenerate range `D..D`, and
a cache entry of age `now - ts` is then valid exactly when its age is below
`D`: the result does not depend on the random draw (no probabilistic branch
is evaluated, in particular no division by the zero-width range), and `get`
returns the entry exactly while the age is below `D`. -/
theorem C8_duration_timeout_behaves_as_fixed (D now ts : Nat) (draw draw2 : ℚ → Bool)
    (v : JsonVal) (hts : ts ≤ now) :
    timestamp_is_valid draw now ts ⟨D, D⟩ = some (decide (now - ts < D))
    ∧ cacheGet draw now [(u0, ⟨ts, v⟩)] (durationIntoTimeout D) u0
      = some (if now - ts < D then some v else none)
    ∧ timestamp_is_valid draw now ts ⟨D, D⟩ = timestamp_is_valid draw2 now ts ⟨D, D⟩ := by
  have h1 : ∀ dr : ℚ → Bool,
      timestamp_is_valid dr now ts ⟨D, D⟩ = some (decide (now - ts < D)) := by
    intro dr
    unfold timestamp_is_valid elapsedSince
    rw [if_pos hts]
    by_cases h : now - ts < D
    · simp [h]
    · simp [h]
  refine ⟨h1 draw, ?_, (h1 draw).trans (h1 draw2).symm⟩
  have hfind : cacheLookup [(u0, ⟨ts, v⟩)] u0 = some ⟨ts, v⟩ := by
    simp [cacheLookup, List.find?]
  unfold cacheGet durationIntoTimeout
  rw [hfind]
  simp only []
  rw [h1 draw]
  by_cases h : now - ts < D
  · simp [h]
  · simp [h]

/-- C8 witness: with `D = 3` ns, an entry of age 5 ns is rejected without
any random draw. -/
theorem C8_duration_timeout_behaves_as_fixed_witness :
    5 ≤ 10
    ∧ (timestamp_is_valid drawTrue 10 5 ⟨3, 3⟩ = some (decide (10 - 5 < 3))
       ∧ cacheGet drawTrue 10 [(u0, ⟨5, JsonVal.null⟩)] (durationIntoTimeout 3) u0
         = some (if 10 - 5 < 3 then some JsonVal.null else none)
       ∧ timestamp_is_valid drawTrue 10 5 ⟨3, 3⟩ = timestamp_is_valid drawFalse 10 5 ⟨3, 3⟩) :=
  ⟨by decide,
   C8_duration_timeout_behaves_as_fixed 3 10 5 drawTrue drawFalse JsonVal.null (by decide)⟩

/-- C9: for a non-degenerate range whose width truncates to zero whole
seconds, an entry whose age lies inside `[low, high)` reaches the
probabilistic branch, whose probability is a division by zero seconds, so
`gen_bool` panics: neither the validity check nor `Cache::get` returns a
value. -/
theorem C9_subsecond_range_panics (low high now ts : Nat) (draw : ℚ → Bool) (v : JsonVal)
    (hts : ts ≤ now) (_hlh : low < high) (hsec : asSecs (high - low) = 0)
    (hlo : low ≤ now - ts) (hhi : now - ts < high) :
    timestamp_is_valid draw now ts ⟨low, high⟩ = none
    ∧ cacheGet draw now [(u0, ⟨ts, v⟩)] (some ⟨low, high⟩) u0 = none := by
  have hvalid : timestamp_is_valid draw now ts ⟨low, high⟩ = none := by
    unfold timestamp_is_valid elapsedSince genBoolArg
    rw [if_pos hts]
    simp [Nat.not_lt.mpr hlo, hhi, hsec]
  refine ⟨hvalid, ?_⟩
  have hfind : cacheLookup [(u0, ⟨ts, v⟩)] u0 = some ⟨ts, v⟩ := by
    simp [cacheLookup, List.find?]
  unfold cacheGet
  rw [hfind]
  simp only []
  rw [hvalid]

/-- Helper: with a past timestamp and a range whose width is at least one
whole second, the validity check never panics. -/
theorem timestamp_is_valid_isSome (draw : ℚ → Bool) (now ts low high : Nat)
    (hts : ts ≤ now) (hsec : asSecs (high - low) ≠ 0) :
    (timestamp_is_valid draw now ts ⟨low, high⟩).isSome = true := by
  unfold timestamp_is_valid elapsedSince genBoolArg
  rw [if_pos hts]
  by_cases h1 : now - ts < low
  · simp [h1]
  · by_cases h2 : now - ts < high
    · simp [h1, h2, hsec]
    · simp [h1, h2]

/-- Helper: a `true` verdict of the validity check puts the entry's age
below `low` or below `high`. -/
theorem timestamp_is_valid_true_cases (draw : ℚ → Bool) (now ts low high : Nat)
    (hts : ts ≤ now)
    (h : timestamp_is_valid draw now ts ⟨low, high⟩ = some true) :
    now - ts < low ∨ now - ts < high := by
  unfold timestamp_is_valid elapsedSince at h
  rw [if_pos hts] at h
  by_cases h1 : now - ts < low
  · exact Or.inl h1
  · by_cases h2 : now - ts < high
    · exact Or.inr h2
    · simp [h1, h2] at h

/-- Helper: an entry of age below `low` always passes the validity check. -/
theorem timestamp_is_valid_young (draw : ℚ → Bool) (now ts low high : Nat)
    (hts : ts ≤ now) (hlo : now - ts < low) :
    timestamp_is_valid draw now ts ⟨low, high⟩ = some true := by
  unfold timestamp_is_valid elapsedSince
  rw [if_pos hts]
  simp [hlo]

/-- C4 counterexample: under the policy `0..10s`, an entry of age half a
second is passed to the RNG with success probability `9/10` (both durations
truncated to whole seconds before dividing), not the exact linear value
`9.5/10 = 19/20` the claim requires; and the verdict at that age really is
the random draw. -/
theorem C4_truncation_counterexample :
    genBoolArg ⟨0, 10 * NANOS_PER_SEC⟩ 500000000 = some ((9 : ℚ) / 10)
    ∧ ((9 : ℚ) / 10)
      ≠ ((10 * NANOS_PER_SEC - 500000000 : Nat) : ℚ) / ((10 * NANOS_PER_SEC - 0 : Nat) : ℚ)
    ∧ timestamp_is_valid drawTrue 500000000 0 ⟨0, 10 * NANOS_PER_SEC⟩ = some true
    ∧ timestamp_is_valid drawFalse 500000000 0 ⟨0, 10 * NANOS_PER_SEC⟩ = some false := by
  refine ⟨?_, ?_, rfl, rfl⟩
  · norm_num [genBoolArg, asSecs, NANOS_PER_SEC]
  · norm_num [NANOS_PER_SEC]

/-- C4 amended: within `[low, high)` the entry is treated as valid with the
probability the code hands to `gen_bool`, namely
`⌊high - age⌋s / ⌊high - low⌋s` (whole-second truncation of both durations,
a step function rather than the exact linear decay); below `low` the entry
is always valid and from `high` on always invalid. -/
theorem C4_amended_step_decay (low high now ts : Nat) (draw : ℚ → Bool)
    (hts : ts ≤ now) (hsec : asSecs (high - low) ≠ 0) :
    (now - ts < low → timestamp_is_valid draw now ts ⟨low, high⟩ = some true)
    ∧ (low ≤ now - ts → now - ts < high →
        timestamp_is_valid draw now ts ⟨low, high⟩
          = some (draw ((asSecs (high - (now - ts)) : ℚ) / (asSecs (high - low) : ℚ))))
    ∧ (high ≤ now - ts → timestamp_is_valid draw now ts ⟨low, high⟩ = some false) := by
  refine ⟨fun hlo => timestamp_is_valid_young draw now ts low high hts hlo, ?_, ?_⟩
  · intro hlo hhi
    unfold timestamp_is_valid elapsedSince genBoolArg
    rw [if_pos hts]
    simp [Nat.not_lt.mpr hlo, hhi, hsec]
  · intro hhi
    unfold timestamp_is_valid elapsedSince
    rw [if_pos hts]
    have h1 : ¬ now - ts < high := Nat.not_lt.mpr hhi
    have h2 : ¬ now - ts < low := by
      refine Nat.not_lt.mpr (le_trans ?_ hhi)
      by_contra hc
      push_neg at hc
      have : high - low = 0 := Nat.sub_eq_zero_of_le (le_of_lt hc)
      simp [asSecs, this] at hsec
    simp [h1, h2]

/-- C4 amended witness: an entry of age 3s under the policy `1s..11s` is
handed to the RNG with probability `8/10`. -/
theorem C4_amended_step_decay_witness :
    ((0 : Nat) ≤ 3000000000 ∧ asSecs (11000000000 - 1000000000) ≠ 0)
    ∧ ((3000000000 - 0 < 1000000000 →
          timestamp_is_valid drawTrue 3000000000 0 ⟨1000000000, 11000000000⟩ = some true)
       ∧ (1000000000 ≤ 3000000000 - 0 → 3000000000 - 0 < 11000000000 →
          timestamp_is_valid drawTrue 3000000000 0 ⟨1000000000, 11000000000⟩
            = some (drawTrue ((asSecs (11000000000 - (3000000000 - 0)) : ℚ)
                / (asSecs (11000000000 - 1000000000) : ℚ))))
       ∧ (11000000000 ≤ 3000000000 - 0 →
          timestamp_is_valid drawTrue 3000000000 0 ⟨1000000000, 11000000000⟩ = some false)) :=
  ⟨⟨by decide, by decide⟩,
   C4_amended_step_decay 1000000000 11000000000 3000000000 0 drawTrue (by decide) (by decide)⟩

/-- C5 counterexample: loading the same persisted entry of age 5s under the
same policy `0..10s` at the same instant retains it in a run of the RNG
whose draws succeed and drops it in a run whose draws fail, although its age
is below the deterministic threshold `high`: the load is probabilistic, not
deterministic. -/
theorem C5_load_nondeterministic_counterexample :
    diskCacheRetain drawTrue (5 * NANOS_PER_SEC) (some ⟨0, 10 * NANOS_PER_SEC⟩)
        [(u0, ⟨0, JsonVal.null⟩)]
      = some [(u0, ⟨0, JsonVal.null⟩)]
    ∧ diskCacheRetain drawFalse (5 * NANOS_PER_SEC) (some ⟨0, 10 * NANOS_PER_SEC⟩)
        [(u0, ⟨0, JsonVal.null⟩)]
      = some []
    ∧ 5 * NANOS_PER_SEC - 0 < 10 * NANOS_PER_SEC := by
  exact ⟨rfl, rfl, by decide⟩

/-- C5 amended: startup load filters the persisted entries through the full
`timestamp_is_valid` check, probabilistic branch included.  Deterministic
guarantees hold only at the edges: an entry of age below `low` is always
retained and every retained entry has age below `high`; inside `[low, high)`
retention depends on the random draws (see the counterexample). -/
theorem C5_amended_load_probabilistic (draw : ℚ → Bool) (now low high : Nat)
    (entries : List (Url × RequestInfo))
    (hsec : asSecs (high - low) ≠ 0) (hts : ∀ e ∈ entries, e.2.timestamp ≤ now) :
    ∃ l, diskCacheRetain draw now (some ⟨low, high⟩) entries = some l
      ∧ (∀ e ∈ entries, now - e.2.timestamp < low → e ∈ l)
      ∧ (∀ e ∈ l, now - e.2.timestamp < high) := by
  have hall : entries.all
      (fun e => (timestamp_is_valid draw now e.2.timestamp ⟨low, high⟩).isSome) = true := by
    rw [List.all_eq_true]
    intro e he
    exact timestamp_is_valid_isSome draw now e.2.timestamp low high (hts e he) hsec
  have hlh : low < high := by
    rcases Nat.lt_or_ge low high with h | h
    · exact h
    · exfalso
      have : high - low = 0 := Nat.sub_eq_zero_of_le h
      simp [asSecs, this] at hsec
  have hret : diskCacheRetain draw now (some ⟨low, high⟩) entries
      = some (entries.filter
          (fun e => (timestamp_is_valid draw now e.2.timestamp ⟨low, high⟩).getD false)) := by
    simp only [diskCacheRetain]
    rw [if_pos hall]
  refine ⟨_, hret, ?_, ?_⟩
  · intro e he hlo
    rw [List.mem_filter]
    refine ⟨he, ?_⟩
    simp [timestamp_is_valid_young draw now e.2.timestamp low high (hts e he) hlo]
  · intro e he
    rw [List.mem_filter] at he
    obtain ⟨he, hp⟩ := he
    have hv : timestamp_is_valid draw now e.2.timestamp ⟨low, high⟩ = some true := by
      have := timestamp_is_valid_isSome draw now e.2.timestamp low high (hts e he) hsec
      cases hcase : timestamp_is_valid draw now e.2.timestamp ⟨low, high⟩ with
      | none => rw [hcase] at this; simp at this
      | some b =>
        rw [hcase] at hp
        cases b with
        | true => rfl
        | false => simp at hp
    rcases timestamp_is_valid_true_cases draw now e.2.timestamp low high (hts e he) hv with
      h | h
    · exact lt_trans h hlh
    · exact h

/-- C5 amended witness: a single entry of age 0 under `0..10s` survives the
load. -/
theorem C5_amended_load_probabilistic_witness :
    (asSecs (10 * NANOS_PER_SEC - 0) ≠ 0
     ∧ (∀ e ∈ [(u0, (⟨0, JsonVal.null⟩ : RequestInfo))], e.2.timestamp ≤ 0))
    ∧ (∃ l, diskCacheRetain drawFalse 0 (some ⟨0, 10 * NANOS_PER_SEC⟩)
          [(u0, ⟨0, JsonVal.null⟩)] = some l
        ∧ (∀ e ∈ [(u0, (⟨0, JsonVal.null⟩ : RequestInfo))], 0 - e.2.timestamp < 0 → e ∈ l)
        ∧ (∀ e ∈ l, 0 - e.2.timestamp < 10 * NANOS_PER_SEC)) :=
  ⟨⟨by decide, by decide⟩,
   C5_amended_load_probabilistic drawFalse 0 0 (10 * NANOS_PER_SEC)
     [(u0, ⟨0, JsonVal.null⟩)] (by decide) (by decide)⟩

/-- C6 counterexample: with the store already holding the full quota of 100
entries whose common age far exceeds the rate-limit window, inserting a new
entry evicts nothing: the count grows to 101 and the globally-oldest entry
is still present afterwards. -/
theorem C6_no_eviction_counterexample :
    bigCache.data.length = RATE_LIMIT_NUM_REQUESTS
    ∧ RATE_LIMIT_INTERVAL < bigNow - 0
    ∧ (cacheInsert true bigCache (mkU 100) ⟨bigNow, JsonVal.null⟩).data.length
      = RATE_LIMIT_NUM_REQUESTS + 1
    ∧ (mkU 0, (⟨0, JsonVal.null⟩ : RequestInfo))
      ∈ (cacheInsert true bigCache (mkU 100) ⟨bigNow, JsonVal.null⟩).data := by
  exact ⟨by decide, by decide, by decide, by decide⟩

/-- C6 amended: `Cache::insert` performs no eviction whatsoever.  Inserting
under a key not yet present keeps every existing entry (however old, and
regardless of the entry count relative to the quota), adds the new binding,
and grows the map by exactly one. -/
theorem C6_amended_insert_never_evicts (c : CacheSt) (url : Url) (info : RequestInfo)
    (persistOk : Bool)
    (hfresh : c.data.any (fun p => decide (p.1 = url)) = false) :
    (cacheInsert persistOk c url info).data.length = c.data.length + 1
    ∧ (url, info) ∈ (cacheInsert persistOk c url info).data
    ∧ ∀ p ∈ c.data, p ∈ (cacheInsert persistOk c url info).data := by
  have hdata : (cacheInsert persistOk c url info).data = c.data ++ [(url, info)] := by
    unfold cacheInsert mapInsert
    rw [hfresh]
    simp [apply_ite CacheSt.data]
  rw [hdata]
  refine ⟨by simp, by simp, ?_⟩
  intro p hp
  exact List.mem_append_left _ hp

/-- C6 amended witness: inserting into a one-entry store keeps the old
entry and yields two entries. -/
theorem C6_amended_insert_never_evicts_witness :
    ([(u0, (⟨0, JsonVal.null⟩ : RequestInfo))].any (fun p => decide (p.1 = mkU 3)) = false)
    ∧ ((cacheInsert true ⟨[(u0, ⟨0, JsonVal.null⟩)], 0⟩ (mkU 3) ⟨5, JsonVal.num 1⟩).data.length
        = [(u0, (⟨0, JsonVal.null⟩ : RequestInfo))].length + 1
       ∧ (mkU 3, (⟨5, JsonVal.num 1⟩ : RequestInfo))
         ∈ (cacheInsert true ⟨[(u0, ⟨0, JsonVal.null⟩)], 0⟩ (mkU 3) ⟨5, JsonVal.num 1⟩).data
       ∧ ∀ p ∈ [(u0, (⟨0, JsonVal.null⟩ : RequestInfo))],
           p ∈ (cacheInsert true ⟨[(u0, ⟨0, JsonVal.null⟩)], 0⟩ (mkU 3)
             ⟨5, JsonVal.num 1⟩).data) :=
  ⟨by decide,
   C6_amended_insert_never_evicts ⟨[(u0, ⟨0, JsonVal.null⟩)], 0⟩ (mkU 3) ⟨5, JsonVal.num 1⟩
     true (by decide)⟩

/-- C7: when the buffer is exhausted and the end flag is unset, a page fetch
with consistent metadata leaves the end flag set exactly when
`pagination.size < pagination.max`; in particular a tie `size = max` leaves
it unset, and any state with an empty buffer and an unset flag performs one
further network fetch rather than terminating. -/
theorem C7_end_flag_iff_size_lt_max {T : Type}
    (pnet : Nat → Url → Except FetchErr (PaginatedResult T))
    (s : PLState T) (w : NetWorld) (d : List T) (pag : PaginationInfo)
    (hbuf : s.buffer = []) (hend : s.end_seen = false)
    (hnet : pnet w.sends (pageUrl s) = Except.ok ⟨d, pag⟩) (hsize : pag.size = d.length) :
    ((plNext pnet s w).2.1).end_seen = decide (pag.size < pag.max)
    ∧ (pag.size = pag.max → ((plNext pnet s w).2.1).end_seen = false)
    ∧ (∀ (s2 : PLState T) (w2 : NetWorld), s2.buffer = [] → s2.end_seen = false →
        ((plNext pnet s2 w2).2.2).sends = w2.sends + 1) := by
  have hflag : ((plNext pnet s w).2.1).end_seen = decide (pag.size < pag.max) := by
    unfold plNext
    rw [hbuf, hend, hnet]
    simp only [Bool.false_eq_true, if_false]
    rw [if_neg (by simp [hsize])]
    cases d with
    | nil =>
      by_cases hlt : pag.size < pag.max <;> simp [hlt]
    | cons x rest =>
      by_cases hlt : pag.size < pag.max <;> simp [hlt]
  refine ⟨hflag, ?_, ?_⟩
  · intro htie
    rw [hflag]
    simp [htie]
  · intro s2 w2 hbuf2 hend2
    unfold plNext
    rw [hbuf2, hend2]
    simp only [Bool.false_eq_true, if_false]
    cases hpn : pnet w2.sends (pageUrl s2) with
    | error e => rfl
    | ok r =>
      by_cases hsz : r.pagination.size = r.data.length
      · cases hd : r.data with
        | nil => simp [hsz, hd]
        | cons x rest => simp [hsz, hd]
      · simp [hsz]

/-- C7 witness: a concrete tie page (`size = max = 1`) leaves the flag
unset. -/
theorem C7_end_flag_iff_size_lt_max_witness :
    (s0runs.buffer = [] ∧ s0runs.end_seen = false
     ∧ pnetC10 (1 : Nat) (pageUrl s0runs)
       = Except.ok ⟨[9], ⟨1, 1⟩⟩
     ∧ (1 : Nat) = [9].length)
    ∧ (((plNext pnetC10 s0runs ⟨⟨[], 0⟩, 0, 1⟩).2.1).end_seen = decide ((1 : Nat) < 1)
       ∧ ((1 : Nat) = 1 →
          ((plNext pnetC10 s0runs ⟨⟨[], 0⟩, 0, 1⟩).2.1).end_seen = false)
       ∧ (∀ (s2 : PLState Nat) (w2 : NetWorld), s2.buffer = [] → s2.end_seen = false →
          ((plNext pnetC10 s2 w2).2.2).sends = w2.sends + 1)) :=
  ⟨⟨rfl, rfl, rfl, rfl⟩,
   C7_end_flag_iff_size_lt_max pnetC10 s0runs ⟨⟨[], 0⟩, 0, 1⟩ [9] ⟨1, 1⟩
     rfl rfl rfl rfl⟩

/-- Helper: a stopping outcome (success or immediate error) passes through
any remaining retry iterations unchanged. -/
theorem retryAux_stop (net : Nat → Except FetchErr JsonVal) (k : Nat)
    (r : Except FetchErr JsonVal) (sends : Nat) (h : isStop r = true) :
    retryAux net k r sends = (r, sends) := by
  cases k with
  | zero => rfl
  | succ k =>
    cases r with
    | ok v => rfl
    | error e =>
      have he : e.isImmediate = true := h
      simp [retryAux, he]

/-- Helper: a transient outcome is an error carrying `FetchErr.transient`. -/
theorem isTransient_elim (r : Except FetchErr JsonVal) (h : isTransient r = true) :
    ∃ i, r = Except.error (FetchErr.transient i) := by
  cases r with
  | ok v => simp [isTransient] at h
  | error e =>
    cases e with
    | client i => simp [isTransient] at h
    | serialization i => simp [isTransient] at h
    | transient i => exact ⟨i, rfl⟩

/-- Helper: when every oracle answer is transient, the retry iterations
exhaust themselves and hand back the outcome of the last attempt made. -/
theorem retryAux_all_transient (net : Nat → Except FetchErr JsonVal) :
    ∀ (k s : Nat) (e0 : FetchErr), e0.isImmediate = false →
      (∀ j, j < k → isTransient (net (s + j)) = true) →
      retryAux net k (Except.error e0) s
        = (if k = 0 then Except.error e0 else net (s + k - 1), s + k) := by
  intro k
  induction k with
  | zero => intro s e0 h0 hj; simp [retryAux]
  | succ k ih =>
    intro s e0 h0 hj
    obtain ⟨i, hns⟩ := isTransient_elim _ (hj 0 (Nat.succ_pos k))
    rw [Nat.add_zero] at hns
    have hrec := ih (s + 1) (FetchErr.transient i) rfl
      (fun j hjk => by
        have hh := hj (j + 1) (Nat.succ_lt_succ hjk)
        have harr : s + (j + 1) = s + 1 + j := by omega
        rw [harr] at hh
        exact hh)
    unfold retryAux
    simp only [h0, Bool.false_eq_true, if_false, attemptNet]
    rw [hns, hrec]
    cases k with
    | zero => simp [hns]
    | succ k1 =>
      have h1 : s + 1 + (k1 + 1) - 1 = s + (k1 + 1 + 1) - 1 := by omega
      have h2 : s + 1 + (k1 + 1) = s + (k1 + 1 + 1) := by omega
      simp [h1, h2]

/-- Helper: with `m` transient answers followed by a stopping answer within
the iteration budget, the retry iterations return that stopping answer
after exactly `m + 1` further attempts. -/
theorem retryAux_stops_at (net : Nat → Except FetchErr JsonVal) :
    ∀ (m k s : Nat) (e0 : FetchErr), e0.isImmediate = false →
      (∀ j, j < m → isTransient (net (s + j)) = true) →
      isStop (net (s + m)) = true → m < k →
      retryAux net k (Except.error e0) s = (net (s + m), s + m + 1) := by
  intro m
  induction m with
  | zero =>
    intro k s e0 h0 hj hstop hmk
    cases k with
    | zero => omega
    | succ k1 =>
      unfold retryAux
      simp only [h0, Bool.false_eq_true, if_false, attemptNet]
      rw [Nat.add_zero] at hstop
      rw [retryAux_stop net k1 (net s) (s + 1) hstop]
      simp
  | succ m ih =>
    intro k s e0 h0 hj hstop hmk
    cases k with
    | zero => omega
    | succ k1 =>
      obtain ⟨i, hns⟩ := isTransient_elim _ (hj 0 (Nat.succ_pos m))
      rw [Nat.add_zero] at hns
      unfold retryAux
      simp only [h0, Bool.false_eq_true, if_false, attemptNet]
      rw [hns]
      have hstop1 : isStop (net (s + 1 + m)) = true := by
        have harr : s + 1 + m = s + (m + 1) := by omega
        rw [harr]
        exact hstop
      have hrec := ih k1 (s + 1) (FetchErr.transient i) rfl
        (fun j hjk => by
          have hh := hj (j + 1) (Nat.succ_lt_succ hjk)
          have harr : s + (j + 1) = s + 1 + j := by omega
          rw [harr] at hh
          exact hh)
        hstop1 (by omega)
      rw [hrec]
      have h1 : s + 1 + m = s + (m + 1) := by omega
      simp [h1]

/-- C2: with an attempt budget `n ≥ 1`, an attempt failing with a client or
serialization error after only transient failures is returned immediately
with no further network attempt, whatever `n` is; and when all `n` attempts
fail transiently, exactly `n` attempts are made and the final attempt's
error is returned. -/
theorem C2_retry_policy (net : Nat → Except FetchErr JsonVal) (n s0 : Nat) (hn : 1 ≤ n) :
    (∀ i e, i < n → (∀ j, j < i → isTransient (net (s0 + j)) = true) →
       net (s0 + i) = Except.error e → e.isImmediate = true →
       retryLoop net n s0 = (Except.error e, s0 + i + 1))
    ∧ ((∀ j, j < n → isTransient (net (s0 + j)) = true) →
       retryLoop net n s0 = (net (s0 + (n - 1)), s0 + n)) := by
  have hloop : retryLoop net n s0 = retryAux net (n - 1) (net s0) (s0 + 1) := rfl
  constructor
  · intro i e hi hj hni himm
    rw [hloop]
    cases i with
    | zero =>
      rw [Nat.add_zero] at hni
      rw [hni]
      rw [retryAux_stop net (n - 1) (Except.error e) (s0 + 1) himm]
    | succ i1 =>
      obtain ⟨id1, hns⟩ := isTransient_elim _ (hj 0 (Nat.succ_pos i1))
      rw [Nat.add_zero] at hns
      rw [hns]
      have hstop : isStop (net (s0 + 1 + i1)) = true := by
        have harr : s0 + 1 + i1 = s0 + (i1 + 1) := by omega
        rw [harr, hni]
        exact himm
      have hrec := retryAux_stops_at net i1 (n - 1) (s0 + 1) (FetchErr.transient id1) rfl
        (fun j hjk => by
          have hh := hj (j + 1) (Nat.succ_lt_succ hjk)
          have harr : s0 + (j + 1) = s0 + 1 + j := by omega
          rw [harr] at hh
          exact hh)
        hstop (by omega)
      rw [hrec]
      have harr : s0 + 1 + i1 = s0 + (i1 + 1) := by omega
      rw [harr, hni]
  · intro hall
    rw [hloop]
    obtain ⟨id1, hns⟩ := isTransient_elim _ (hall 0 (by omega))
    rw [Nat.add_zero] at hns
    rw [hns]
    have hrec := retryAux_all_transient net (n - 1) (s0 + 1) (FetchErr.transient id1) rfl
      (fun j hjk => by
        have hh := hall (j + 1) (by omega)
        have harr : s0 + (j + 1) = s0 + 1 + j := by omega
        rw [harr] at hh
        exact hh)
    rw [hrec]
    cases n with
    | zero => omega
    | succ n1 =>
      cases n1 with
      | zero => simp [hns]
      | succ n2 =>
        have h1 : s0 + 1 + n2 = s0 + (n2 + 1) := by omega
        have h2 : s0 + 1 + (n2 + 1) = s0 + (n2 + 1 + 1) := by omega
        simp [h1, h2]

/-- C2 witness: with budget 3, a client error on the second attempt stops
the loop at two attempts; three transient failures use exactly three
attempts and the third attempt's error is what comes back. -/
theorem C2_retry_policy_witness :
    retryLoop netClientSecond 3 0 = (Except.error (FetchErr.client 7), 2)
    ∧ retryLoop netAllTransient 3 0 = (Except.error (FetchErr.transient 2), 3) :=
  ⟨(C2_retry_policy netClientSecond 3 0 (by decide)).1 1 (FetchErr.client 7)
     (by decide) (by decide) rfl rfl,
   (C2_retry_policy netAllTransient 3 0 (by decide)).2 (by decide)⟩

/-- Helper: folding `min` never exceeds the initial accumulator. -/
theorem foldl_min_le_init (xs : List Nat) : ∀ a : Nat, xs.foldl min a ≤ a := by
  induction xs with
  | nil => intro a; simp
  | cons x xs ih =>
    intro a
    rw [List.foldl_cons]
    exact le_trans (ih (min a x)) (Nat.min_le_left a x)

/-- Helper: folding `min` yields the accumulator or a list element. -/
theorem foldl_min_mem (xs : List Nat) : ∀ a : Nat, xs.foldl min a = a ∨ xs.foldl min a ∈ xs := by
  induction xs with
  | nil => intro a; left; rfl
  | cons x xs ih =>
    intro a
    rw [List.foldl_cons]
    rcases ih (min a x) with h | h
    · rcases Nat.le_total a x with hax | hax
      · left
        rw [h]
        exact Nat.min_eq_left hax
      · right
        rw [h, Nat.min_eq_right hax]
        exact List.mem_cons_self x xs
    · exact Or.inr (List.mem_cons_of_mem x h)

/-- Helper: folding `min` is a lower bound of the list elements. -/
theorem foldl_min_le_all (xs : List Nat) : ∀ a x, x ∈ xs → xs.foldl min a ≤ x := by
  induction xs with
  | nil => intro a x hx; cases hx
  | cons y ys ih =>
    intro a x hx
    rw [List.foldl_cons]
    rcases List.mem_cons.mp hx with h | h
    · subst h
      exact le_trans (foldl_min_le_init ys (min a x)) (Nat.min_le_right a x)
    · exact ih (min a y) x h

/-- Helper: `List.min?` returns a member that bounds every element below. -/
theorem min?_spec (l : List Nat) (m : Nat) (h : l.min? = some m) :
    m ∈ l ∧ ∀ x ∈ l, m ≤ x := by
  cases l with
  | nil => simp [List.min?] at h
  | cons x xs =>
    have hdef : (x :: xs).min? = some (xs.foldl min x) := rfl
    rw [hdef] at h
    have hm : xs.foldl min x = m := by injection h
    constructor
    · rcases foldl_min_mem xs x with h1 | h1
      · rw [← hm, h1]; exact List.mem_cons_self x xs
      · rw [← hm]; exact List.mem_cons_of_mem x h1
    · intro y hy
      rcases List.mem_cons.mp hy with h1 | h1
      · subst h1; rw [← hm]; exact foldl_min_le_init xs y
      · rw [← hm]; exact foldl_min_le_all xs x y h1

/-- C3: when the timestamps tracked by the cache all lie in the past, the
rate-limit check proceeds immediately while fewer than 100 of them fall
within the 60-second window, and once at least 100 do, it demands a wait of
`W - elapsed(oldest tracked timestamp still within the window)`, a duration
within `[0, W]`. -/
theorem C3_rate_limit_check (now : Nat) (ts : List Nat) (hts : ∀ t ∈ ts, t ≤ now) :
    ((recentRequestTimes now ts).length < RATE_LIMIT_NUM_REQUESTS →
       rateLimited now ts = Except.ok none)
    ∧ (RATE_LIMIT_NUM_REQUESTS ≤ (recentRequestTimes now ts).length →
       ∃ m, (recentRequestTimes now ts).min? = some m
         ∧ (∀ x ∈ recentRequestTimes now ts, m ≤ x)
         ∧ now - m < RATE_LIMIT_INTERVAL
         ∧ rateLimited now ts = Except.ok (some (RATE_LIMIT_INTERVAL - (now - m)))
         ∧ RATE_LIMIT_INTERVAL - (now - m) ≤ RATE_LIMIT_INTERVAL) := by
  constructor
  · intro hlt
    unfold rateLimited
    rw [if_neg (Nat.not_le.mpr hlt)]
  · intro hge
    have hne : recentRequestTimes now ts ≠ [] := by
      intro hnil
      rw [hnil] at hge
      simp [RATE_LIMIT_NUM_REQUESTS] at hge
    obtain ⟨m, hm⟩ : ∃ m, (recentRequestTimes now ts).min? = some m := by
      cases hList : recentRequestTimes now ts with
      | nil => exact absurd hList hne
      | cons x xs => exact ⟨xs.foldl min x, rfl⟩
    obtain ⟨hmem, hlb⟩ := min?_spec _ m hm
    have hmts : m ∈ ts ∧ m ≤ now := by
      unfold recentRequestTimes at hmem
      rw [List.mem_filter] at hmem
      exact ⟨hmem.1, hts m hmem.1⟩
    have hwin : now - m < RATE_LIMIT_INTERVAL := by
      unfold recentRequestTimes at hmem
      rw [List.mem_filter] at hmem
      have hpred := hmem.2
      rw [show elapsedSince now m = some (now - m) from by
        unfold elapsedSince; rw [if_pos hmts.2]] at hpred
      simpa using hpred
    refine ⟨m, hm, hlb, hwin, ?_, Nat.sub_le _ _⟩
    unfold rateLimited
    rw [if_pos hge, hm]
    simp [hmts.2, hwin]

/-- C3 witness: 100 requests recorded 5 ns ago force a wait of `W - 5`. -/
theorem C3_rate_limit_check_witness :
    ((∀ t ∈ List.replicate 100 5, t ≤ 10)
     ∧ RATE_LIMIT_NUM_REQUESTS ≤ (recentRequestTimes 10 (List.replicate 100 5)).length)
    ∧ (∃ m, (recentRequestTimes 10 (List.replicate 100 5)).min? = some m
        ∧ (∀ x ∈ recentRequestTimes 10 (List.replicate 100 5), m ≤ x)
        ∧ 10 - m < RATE_LIMIT_INTERVAL
        ∧ rateLimited 10 (List.replicate 100 5)
          = Except.ok (some (RATE_LIMIT_INTERVAL - (10 - m)))
        ∧ RATE_LIMIT_INTERVAL - (10 - m) ≤ RATE_LIMIT_INTERVAL) :=
  ⟨⟨by decide, by decide⟩,
   (C3_rate_limit_check 10 (List.replicate 100 5) (by decide)).2 (by decide)⟩

/-- C9 witness: the policy `0..(1/2 second)` panics on an entry of age 0. -/
theorem C9_subsecond_range_panics_witness :
    ((0 : Nat) ≤ 0 ∧ 0 < 500000000 ∧ asSecs (500000000 - 0) = 0
     ∧ 0 ≤ 0 - 0 ∧ 0 - 0 < 500000000)
    ∧ (timestamp_is_valid drawTrue 0 0 ⟨0, 500000000⟩ = none
       ∧ cacheGet drawTrue 0 [(u0, ⟨0, JsonVal.null⟩)] (some ⟨0, 500000000⟩) u0 = none) :=
  ⟨⟨by decide, by decide, by decide, by decide, by decide⟩,
   C9_subsecond_range_panics 0 500000000 0 0 drawTrue JsonVal.null
     (by decide) (by decide) (by decide) (by decide) (by decide)⟩
